import Mathlib

/-!
Shallow embedding of the data-cleaning pipeline of the carsales repository
(notebook `src/notebooks/01_project.ipynb` together with the helpers it
imports from the `carsales.features` and `carsales.constants` modules).

Modelling conventions:
* a column is a `List (Option α)`; `none` models a pandas null (NaN/NaT),
* numeric cells are rationals (`ℚ`), which represent exactly every numeric
  literal occurring in the pipeline and its documented examples,
* a table is a list of rows (records) or, where only the schema matters, a
  list of column names,
* pandas operations that can raise are modelled with `Except`.
-/

namespace Carsales

/-- Modelled from the spec: `remove_prices` is imported by the notebook from
`carsales.features`, which is not part of the repository sources; per the
spec (§4.3 `bound_numeric_field`) it receives a numeric column and an
inclusive lower and upper bound and returns a copy of the column in which
values strictly outside the bounds become null, no row being removed; a
null cell stays null. -/
def remove_prices (col : List (Option ℚ)) (price_min price_max : ℚ) :
    List (Option ℚ) :=
  col.map fun c =>
    match c with
    | none => none
    | some v => if price_min ≤ v ∧ v ≤ price_max then some v else none

/-- C1: `remove_prices` keeps the column length, passes through every value
inside the inclusive bounds, nulls every value strictly outside them, and on
the documented example `[0, 1, 350000, 999999]` with bounds `1` and `350000`
yields `[null, 1, 350000, null]`. -/
theorem remove_prices_bounds (col : List (Option ℚ)) (price_min price_max : ℚ)
    (hle : price_min ≤ price_max) :
    (remove_prices col price_min price_max).length = col.length
    ∧ (∀ (i : Nat) (v : ℚ), col[i]? = some (some v) →
        (price_min ≤ v ∧ v ≤ price_max →
          (remove_prices col price_min price_max)[i]? = some (some v))
        ∧ (¬ (price_min ≤ v ∧ v ≤ price_max) →
          (remove_prices col price_min price_max)[i]? = some none))
    ∧ remove_prices [some 0, some 1, some 350000, some 999999] 1 350000
        = [none, some 1, some 350000, none] := by
  refine ⟨by simp [remove_prices], ?_, by decide⟩
  intro i v hv
  constructor <;> intro hb <;>
    simp [remove_prices, List.getElem?_map, hv, hb]

/-- Witness for C1 at the spec's concrete example. -/
theorem remove_prices_bounds_witness :
    remove_prices [some 0, some 1, some 350000, some 999999] 1 350000
      = [none, some 1, some 350000, none] :=
  (remove_prices_bounds [] 1 350000 (by norm_num)).2.2

/-- One car listing after the notebook's column rename and the drop of
`seller`, `offer_type` and `n_pictures` (17 fields; `odometer` appears under
its later name `odometer_km`).  Textual and categorical fields that the data
dictionary marks nullable are `Option`-valued. -/
structure Listing where
  date_crawled : Option String
  name : String
  price : Option ℚ
  ab_test : String
  vehicle_type : Option String
  registration_year : Int
  gearbox : Option String
  power_ps : Int
  model : Option String
  odometer_km : Option ℚ
  registration_month : Int
  fuel_type : Option String
  brand : String
  unrepaired_damage : Option String
  ad_created : Option String
  postal_code : String
  last_seen : Option String
deriving DecidableEq

/-- Modelled from the spec: `remove_registrations` is imported by the notebook
from `carsales.features`, which is not part of the repository sources; per the
spec (§4.4) it removes every row whose registration year falls outside the
inclusive range `[min_acceptable_year, max_acceptable_year]`, keeping boundary
rows.  The notebook's own exploratory mask uses the same inclusive test
`autos['registration_year'].between(min_acceptable_year, max_acceptable_year)`. -/
def remove_registrations (table : List Listing)
    (min_acceptable_year max_acceptable_year : Int) : List Listing :=
  table.filter fun r =>
    decide (min_acceptable_year ≤ r.registration_year
      ∧ r.registration_year ≤ max_acceptable_year)

/-- C4: `remove_registrations` returns a sublist of the input (rows kept whole
and in order, hence with all other fields unchanged), keeps every row whose
registration year lies in the inclusive range — in particular rows equal to a
boundary — and the rows of the result are exactly the input rows inside the
range. -/
theorem remove_registrations_exact (table : List Listing) (minY maxY : Int)
    (hle : minY ≤ maxY) :
    (remove_registrations table minY maxY).Sublist table
    ∧ (∀ r ∈ table, minY ≤ r.registration_year → r.registration_year ≤ maxY →
        r ∈ remove_registrations table minY maxY)
    ∧ (∀ r ∈ remove_registrations table minY maxY,
        r ∈ table ∧ minY ≤ r.registration_year ∧ r.registration_year ≤ maxY) := by
  refine ⟨List.filter_sublist _, ?_, ?_⟩
  · intro r hr h1 h2
    simp [remove_registrations, List.mem_filter, hr, h1, h2]
  · intro r hr
    simpa [remove_registrations, List.mem_filter] using hr

/-- A listing registered exactly in the minimum acceptable year 1886. -/
def boundaryListing : Listing :=
  { date_crawled := some "2016-03-26 17:47:46"
    name := "Benz_Patent_Motorwagen"
    price := some 5000
    ab_test := "test"
    vehicle_type := some "cabrio"
    registration_year := 1886
    gearbox := some "manuell"
    power_ps := 1
    model := some "andere"
    odometer_km := some 150000
    registration_month := 3
    fuel_type := some "benzin"
    brand := "mercedes_benz"
    unrepaired_damage := some "nein"
    ad_created := some "2016-03-26 00:00:00"
    postal_code := "79588"
    last_seen := some "2016-04-06 06:45:54" }

/-- Witness for C4: a row registered exactly at the lower boundary year is
kept. -/
theorem remove_registrations_exact_witness :
    boundaryListing ∈ remove_registrations [boundaryListing] 1886 2016 :=
  (remove_registrations_exact [boundaryListing] 1886 2016 (by decide)).2.1
    boundaryListing (by simp) (by decide) (by decide)

/-- C8: `remove_registrations` is idempotent — filtering an already filtered
table with the same bounds changes nothing. -/
theorem remove_registrations_idempotent (table : List Listing)
    (minY maxY : Int) :
    remove_registrations (remove_registrations table minY maxY) minY maxY
      = remove_registrations table minY maxY := by
  simp only [remove_registrations, List.filter_filter]
  congr 1
  funext r
  cases h : decide (minY ≤ r.registration_year ∧ r.registration_year ≤ maxY) <;>
    simp [h]

/-- Projection of a `Table` onto the group-key column (`brand`) and the
numeric target columns the notebook aggregates (`price`, `odometer_km`);
which target column a run uses is selected by an accessor argument. -/
structure AggRow where
  brand : String
  price : ℚ
  odometer_km : ℚ
deriving DecidableEq

/-- Rows of `table` whose brand equals `b`. -/
def matchingRows (table : List AggRow) (b : String) : List AggRow :=
  table.filter fun r => r.brand == b

/-- Unweighted arithmetic mean of a list of rationals. -/
def listMean (l : List ℚ) : ℚ := l.sum / l.length

/-- Modelled from the spec: `compute_brands_avg_feature` is imported by the
notebook from `carsales.features`, which is not part of the repository
sources; per the spec (§4.7 `grouped_mean`) it maps every retained group key
that has at least one matching row to the arithmetic mean of the target
column over its rows, and excludes keys with zero matching rows. -/
def compute_brands_avg_feature (table : List AggRow) (brands : List String)
    (feature : AggRow → ℚ) : List (String × ℚ) :=
  (brands.filter fun b => decide (matchingRows table b ≠ [])).map
    fun b => (b, listMean ((matchingRows table b).map feature))

/-- C3: the domain of `compute_brands_avg_feature` is exactly the retained
keys with at least one matching row (a key with no rows is absent), each such
key is mapped to the unweighted arithmetic mean of the target column over its
matching rows, and on the documented example
`[(A, 100), (A, 300), (B, 50)]` with retain-set `{A, B}` the result is
`{A ↦ 200, B ↦ 50}`. -/
theorem compute_brands_avg_feature_spec (table : List AggRow)
    (brands : List String) (feature : AggRow → ℚ) :
    (∀ b : String,
        (∃ q, (b, q) ∈ compute_brands_avg_feature table brands feature) ↔
          b ∈ brands ∧ matchingRows table b ≠ [])
    ∧ (∀ b q, (b, q) ∈ compute_brands_avg_feature table brands feature →
        q = listMean ((matchingRows table b).map feature))
    ∧ compute_brands_avg_feature
        [⟨"A", 100, 0⟩, ⟨"A", 300, 0⟩, ⟨"B", 50, 0⟩] ["A", "B"] AggRow.price
        = [("A", 200), ("B", 50)] := by
  refine ⟨?_, ?_, ?_⟩
  case refine_3 =>
    simp +decide [compute_brands_avg_feature, matchingRows, listMean, List.filter]
    norm_num
  · intro b
    constructor
    · rintro ⟨q, hq⟩
      simp only [compute_brands_avg_feature, List.mem_map, List.mem_filter,
        decide_eq_true_eq, Prod.mk.injEq] at hq
      obtain ⟨a, ⟨ha, hne⟩, hab, _⟩ := hq
      exact hab ▸ ⟨ha, hne⟩
    · rintro ⟨hb, hne⟩
      refine ⟨listMean ((matchingRows table b).map feature), ?_⟩
      simp only [compute_brands_avg_feature, List.mem_map, List.mem_filter,
        decide_eq_true_eq]
      exact ⟨b, ⟨hb, hne⟩, rfl⟩
  · intro b q hq
    simp only [compute_brands_avg_feature, List.mem_map, List.mem_filter,
      decide_eq_true_eq, Prod.mk.injEq] at hq
    obtain ⟨a, _, hab, hq⟩ := hq
    exact hq ▸ hab ▸ rfl

/-- Witness for C3: on the documented example the key `A` is present and is
mapped to the mean of its matching rows. -/
theorem compute_brands_avg_feature_spec_witness :
    (200 : ℚ) = listMean ((matchingRows
      [⟨"A", 100, 0⟩, ⟨"A", 300, 0⟩, ⟨"B", 50, 0⟩] "A").map AggRow.price) := by
  have h := compute_brands_avg_feature_spec
    [⟨"A", 100, 0⟩, ⟨"A", 300, 0⟩, ⟨"B", 50, 0⟩] ["A", "B"] AggRow.price
  exact h.2.1 "A" 200 (by rw [h.2.2]; simp)

/-- One cell of pandas `Series.replace({k₁: v₁, ...})`: a value equal to a
mapping key becomes the mapped value, any other value is unchanged. -/
def replaceCell (mapping : List (String × String)) (v : String) : String :=
  match mapping.lookup v with
  | some w => w
  | none => v

/-- pandas `Series.replace(mapping)` over a whole column; a null cell is
unchanged. -/
def applyColumn (mapping : List (String × String))
    (col : List (Option String)) : List (Option String) :=
  col.map fun c => c.map (replaceCell mapping)

/-- `autos[categorical_columns] = autos[categorical_columns].replace(mapping_ge_to_en)`
from the notebook: a table of named columns in which every column named in
`targets` is replaced cell-wise through the mapping and every other column is
left untouched. -/
def apply_value_mapping (table : List (String × List (Option String)))
    (targets : List String) (mapping : List (String × String)) :
    List (String × List (Option String)) :=
  table.map fun nc =>
    if nc.1 ∈ targets then (nc.1, applyColumn mapping nc.2) else nc

theorem lookup_eq_none_of_not_key (mapping : List (String × String))
    (v : String) (hv : v ∉ mapping.map Prod.fst) : mapping.lookup v = none := by
  induction mapping with
  | nil => rfl
  | cons p rest ih =>
    obtain ⟨k, u⟩ := p
    simp only [List.map_cons, List.mem_cons, not_or] at hv
    have hne : (v == k) = false := by
      simpa [beq_eq_false_iff_ne] using hv.1
    simp only [List.lookup, hne]
    exact ih hv.2

theorem replaceCell_of_not_key (mapping : List (String × String)) (v : String)
    (hv : v ∉ mapping.map Prod.fst) : replaceCell mapping v = v := by
  simp [replaceCell, lookup_eq_none_of_not_key mapping v hv]

theorem mem_snd_of_lookup_eq_some (mapping : List (String × String))
    (v w : String) (h : mapping.lookup v = some w) :
    w ∈ mapping.map Prod.snd := by
  induction mapping with
  | nil => simp [List.lookup] at h
  | cons p rest ih =>
    obtain ⟨k, u⟩ := p
    by_cases hp : (v == k) = true
    · simp only [List.lookup, hp, Option.some.injEq] at h
      simp [h]
    · have hf : (v == k) = false := by
        simpa using hp
      simp only [List.lookup, hf] at h
      simp [List.map_cons, ih h]

theorem replaceCell_idem (mapping : List (String × String))
    (hdisj : ∀ w ∈ mapping.map Prod.snd, w ∉ mapping.map Prod.fst)
    (v : String) :
    replaceCell mapping (replaceCell mapping v) = replaceCell mapping v := by
  cases h : mapping.lookup v with
  | none =>
    have hv : replaceCell mapping v = v := by simp [replaceCell, h]
    rw [hv]
    exact hv
  | some w =>
    have hv : replaceCell mapping v = w := by simp [replaceCell, h]
    rw [hv]
    exact replaceCell_of_not_key mapping w
      (hdisj w (mem_snd_of_lookup_eq_some mapping v w h))

/-- C6: under a mapping whose value-set is disjoint from its key-set,
`apply_value_mapping` (i) leaves every cell whose value is not a mapping key
unchanged — in particular it never nulls it — and leaves null cells null,
for targeted and untargeted columns alike, and (ii) is idempotent. -/
theorem apply_value_mapping_spec
    (table : List (String × List (Option String))) (targets : List String)
    (mapping : List (String × String))
    (hdisj : ∀ w ∈ mapping.map Prod.snd, w ∉ mapping.map Prod.fst) :
    (∀ (j : Nat) (name : String) (col : List (Option String)),
        table[j]? = some (name, col) →
        ∃ col2, (apply_value_mapping table targets mapping)[j]?
            = some (name, col2)
          ∧ col2.length = col.length
          ∧ (∀ (i : Nat) (v : String), v ∉ mapping.map Prod.fst →
              col[i]? = some (some v) → col2[i]? = some (some v))
          ∧ (∀ i : Nat, col[i]? = some none → col2[i]? = some none))
    ∧ apply_value_mapping (apply_value_mapping table targets mapping)
        targets mapping
      = apply_value_mapping table targets mapping := by
  constructor
  · intro j name col hj
    by_cases ht : name ∈ targets
    · refine ⟨applyColumn mapping col, ?_, by simp [applyColumn], ?_, ?_⟩
      · simp [apply_value_mapping, List.getElem?_map, hj, ht]
      · intro i v hv hi
        simp [applyColumn, List.getElem?_map, hi,
          replaceCell_of_not_key mapping v hv]
      · intro i hi
        simp [applyColumn, List.getElem?_map, hi]
    · refine ⟨col, ?_, rfl, fun i v _ hi => hi, fun i hi => hi⟩
      simp [apply_value_mapping, List.getElem?_map, hj, ht]
  · simp only [apply_value_mapping, List.map_map]
    apply List.map_congr_left
    intro nc _
    by_cases ht : nc.1 ∈ targets
    · simp only [Function.comp, ht, if_pos, applyColumn, List.map_map]
      refine congrArg _ (List.map_congr_left fun c _ => ?_)
      cases c with
      | none => rfl
      | some v => simp [Option.map, replaceCell_idem mapping hdisj v]
    · simp [Function.comp, ht]

/-- Witness for C6: idempotence at a concrete gearbox table and the
German-to-English fragment mapping manual/automatic transmissions. -/
theorem apply_value_mapping_spec_witness :
    apply_value_mapping
      (apply_value_mapping
        [("gearbox", [some "manuell", some "automatik", none]),
         ("name", [some "golf"])]
        ["gearbox"] [("manuell", "manual"), ("automatik", "automatic")])
      ["gearbox"] [("manuell", "manual"), ("automatik", "automatic")]
    = apply_value_mapping
        [("gearbox", [some "manuell", some "automatik", none]),
         ("name", [some "golf"])]
        ["gearbox"] [("manuell", "manual"), ("automatik", "automatic")] :=
  (apply_value_mapping_spec
      [("gearbox", [some "manuell", some "automatik", none]),
       ("name", [some "golf"])]
      ["gearbox"] [("manuell", "manual"), ("automatik", "automatic")]
      (by decide)).2

/-- The mapping the notebook applies to the `model` column alone:
`autos['model'].replace({'andere': 'other'})`. -/
def mapping_andere : List (String × String) := [("andere", "other")]

/-- The notebook's final list of categorical columns to translate (after
`ab_test` is removed from it); `model` is deliberately not in it. -/
def categorical_columns : List String :=
  ["vehicle_type", "gearbox", "fuel_type", "unrepaired_damage"]

/-- `autos['model'] = autos['model'].replace({'andere': 'other'})`. -/
def translate_model (col : List (Option String)) : List (Option String) :=
  applyColumn mapping_andere col

theorem replaceCell_andere (v : String) :
    replaceCell mapping_andere v = if v = "andere" then "other" else v := by
  by_cases h : v = "andere"
  · simp [replaceCell, mapping_andere, List.lookup, h]
  · have hne : (v == "andere") = false := by
      simpa [beq_eq_false_iff_ne] using h
    simp [replaceCell, mapping_andere, List.lookup, hne, h]

/-- C10: `model` is not among the configured categorical columns, yet the
separate `replace({'andere': 'other'})` on the `model` column leaves no cell
equal to `andere`, maps `andere` cells to `other`, and leaves every other
cell — including nulls — unchanged. -/
theorem translate_model_andere_spec :
    "model" ∉ categorical_columns
    ∧ (∀ (col : List (Option String)) (c : Option String),
        c ∈ translate_model col → c ≠ some "andere")
    ∧ (∀ (col : List (Option String)) (i : Nat) (c : Option String),
        col[i]? = some c → c ≠ some "andere" →
        (translate_model col)[i]? = some c)
    ∧ (∀ (col : List (Option String)) (i : Nat),
        col[i]? = some (some "andere") →
        (translate_model col)[i]? = some (some "other")) := by
  refine ⟨by decide, ?_, ?_, ?_⟩
  · intro col c hc
    simp only [translate_model, applyColumn, List.mem_map] at hc
    obtain ⟨c0, _, rfl⟩ := hc
    cases c0 with
    | none => simp
    | some v =>
      intro hEq
      have hv : replaceCell mapping_andere v = "andere" := by
        simpa using hEq
      rw [replaceCell_andere] at hv
      by_cases h : v = "andere" <;> simp [h] at hv
  · intro col i c hc hne
    cases c with
    | none => simp [translate_model, applyColumn, List.getElem?_map, hc]
    | some v =>
      have hv : v ≠ "andere" := fun h => hne (by rw [h])
      simp [translate_model, applyColumn, List.getElem?_map, hc,
        replaceCell_andere, hv]
  · intro col i hc
    simp [translate_model, applyColumn, List.getElem?_map, hc,
      replaceCell_andere]

/-- Witness for C10 on a concrete model column. -/
theorem translate_model_andere_spec_witness :
    (translate_model [some "andere", some "golf", none])[0]?
      = some (some "other") :=
  translate_model_andere_spec.2.2.2 [some "andere", some "golf", none] 0 rfl

/-- A timestamp parsed from the source format `YYYY-MM-DD HH:MM:SS`, kept as
its digit characters (the rendering with `%Y%m%d %H:%M:%S` reproduces exactly
these digits). -/
structure Timestamp where
  y1 : Char
  y2 : Char
  y3 : Char
  y4 : Char
  mo1 : Char
  mo2 : Char
  d1 : Char
  d2 : Char
  h1 : Char
  h2 : Char
  mi1 : Char
  mi2 : Char
  s1 : Char
  s2 : Char
deriving DecidableEq

/-- Numeric value of a two-digit group. -/
def twoDigit (a b : Char) : Nat :=
  10 * (a.toNat - 48) + (b.toNat - 48)

/-- `pd.to_datetime` on one value of the notebook's date columns, which hold
strings in the fixed source format `YYYY-MM-DD HH:MM:SS`: the string parses
exactly when it has that shape with digit fields in calendar ranges, and any
other string is unparsable (pandas raises for it, see `to_datetime`). -/
def parseSourceDate (s : String) : Option Timestamp :=
  match s.data with
  | [y1, y2, y3, y4, '-', mo1, mo2, '-', d1, d2, ' ',
     h1, h2, ':', mi1, mi2, ':', s1, s2] =>
    if [y1, y2, y3, y4, mo1, mo2, d1, d2, h1, h2, mi1, mi2, s1, s2].all
          Char.isDigit
        ∧ 1 ≤ twoDigit mo1 mo2 ∧ twoDigit mo1 mo2 ≤ 12
        ∧ 1 ≤ twoDigit d1 d2 ∧ twoDigit d1 d2 ≤ 31
        ∧ twoDigit h1 h2 ≤ 23 ∧ twoDigit mi1 mi2 ≤ 59 ∧ twoDigit s1 s2 ≤ 59
    then some ⟨y1, y2, y3, y4, mo1, mo2, d1, d2, h1, h2, mi1, mi2, s1, s2⟩
    else none
  | _ => none

/-- `.dt.strftime("%Y%m%d %H:%M:%S")` on one parsed timestamp. -/
def strftime (t : Timestamp) : String :=
  String.mk [t.y1, t.y2, t.y3, t.y4, t.mo1, t.mo2, t.d1, t.d2, ' ',
             t.h1, t.h2, ':', t.mi1, t.mi2, ':', t.s1, t.s2]

/-- One cell of `pd.to_datetime` with its default `errors='raise'`: a null
(NaN) becomes NaT, a parsable string its timestamp, and an unparsable string
raises. -/
def parseDateCell : Option String → Except String (Option Timestamp)
  | none => Except.ok none
  | some s =>
    match parseSourceDate s with
    | some t => Except.ok (some t)
    | none => Except.error s

/-- `pd.to_datetime(column)` with the default `errors='raise'`: the whole
conversion fails on the first unparsable value. -/
def to_datetime : List (Option String) → Except String (List (Option Timestamp))
  | [] => Except.ok []
  | c :: rest =>
    match parseDateCell c, to_datetime rest with
    | Except.ok t, Except.ok ts => Except.ok (t :: ts)
    | Except.error e, _ => Except.error e
    | Except.ok _, Except.error e => Except.error e

/-- The notebook's date normalization of one column:
`pd.to_datetime(autos[column]).dt.strftime(date_format)` with
`date_format = "%Y%m%d %H:%M:%S"`; NaT cells render back to null. -/
def reformat_dates (col : List (Option String)) :
    Except String (List (Option String)) :=
  match to_datetime col with
  | Except.ok ts => Except.ok (ts.map fun c => c.map strftime)
  | Except.error e => Except.error e

/-- C5 counterexample: on a column holding one unparsable value the date
normalizer fails the whole conversion (pandas `errors='raise'`), it does not
emit a per-cell null as the claim states. -/
theorem reformat_dates_unparsable_fatal :
    reformat_dates [some "not a date"] = Except.error "not a date"
    ∧ reformat_dates [some "not a date"] ≠ Except.ok [none] := by
  refine ⟨rfl, ?_⟩
  intro h
  rw [show reformat_dates [some "not a date"] = Except.error "not a date"
    from rfl] at h
  exact Except.noConfusion h

/-- C5 amended: on a column all of whose non-null values parse in the source
format, the date normalizer succeeds and rewrites each value to the canonical
format, nulls staying null; and every parsable source-format string
`YYYY-MM-DD HH:MM:SS` is rendered as `YYYYMMDD HH:MM:SS` (the dashes are
dropped, the time part is kept verbatim).  A column containing an unparsable
value makes the whole conversion fail instead of nulling that cell. -/
theorem reformat_dates_parsable (col : List (Option String))
    (h : (col.all fun c =>
        match c with
        | none => true
        | some s => (parseSourceDate s).isSome) = true) :
    reformat_dates col
      = Except.ok (col.map fun c =>
          c.bind fun s => (parseSourceDate s).map strftime)
    ∧ ∀ (a1 a2 a3 a4 b1 b2 c1 c2 d1 d2 e1 e2 f1 f2 : Char) (t : Timestamp),
        parseSourceDate (String.mk [a1, a2, a3, a4, '-', b1, b2, '-', c1, c2,
          ' ', d1, d2, ':', e1, e2, ':', f1, f2]) = some t →
        strftime t = String.mk [a1, a2, a3, a4, b1, b2, c1, c2,
          ' ', d1, d2, ':', e1, e2, ':', f1, f2] := by
  constructor
  · have key : to_datetime col
        = Except.ok (col.map fun c => c.bind fun s => parseSourceDate s) := by
      induction col with
      | nil => rfl
      | cons c rest ih =>
        simp only [List.all_cons, Bool.and_eq_true] at h
        have hrest := ih h.2
        cases c with
        | none => simp [to_datetime, parseDateCell, hrest]
        | some s =>
          obtain ⟨t, ht⟩ := Option.isSome_iff_exists.mp h.1
          simp [to_datetime, parseDateCell, ht, hrest]
    simp only [reformat_dates, key, List.map_map]
    refine congrArg _ (List.map_congr_left fun c _ => ?_)
    cases c with
    | none => rfl
    | some s => simp [Function.comp, Option.map, Option.bind]
  · intro a1 a2 a3 a4 b1 b2 c1 c2 d1 d2 e1 e2 f1 f2 t ht
    simp only [parseSourceDate] at ht
    split at ht
    · cases ht
      rfl
    · exact Option.noConfusion ht

/-- Witness for C5 amended on a parsable column with a null. -/
theorem reformat_dates_parsable_witness :
    reformat_dates [some "2016-03-05 14:25:08", none]
      = Except.ok [some "20160305 14:25:08", none] := by
  have h := (reformat_dates_parsable [some "2016-03-05 14:25:08", none]
    (by decide)).1
  rw [h]
  rfl

/-- The table-transforming steps of the notebook, one constructor per cell
that changes the `autos` table or computes an aggregate from it. -/
inductive Step where
  | loadAutos
  | renameAllColumns
  | dropConstantColumns
  | stripPriceChars
  | castPriceFloat
  | boundPrices
  | stripOdometerChars
  | renameOdometerColumn
  | castOdometerFloat
  | removeRegistrationOutliers
  | aggregateBrandPrices
  | aggregateBrandMileages
  | translateCategoricals
  | translateModelAndere
  | normalizeDates
  | dropNullPriceRows
deriving DecidableEq

/-- The steps in the order in which the notebook's code cells execute them:
`load_autos`; the column rename list; `drop(columns=['seller', 'offer_type',
'n_pictures'])`; `remove_chars(autos['price'], ['$', ','])`;
`astype(float)`; `remove_prices(autos['price'], price_min, price_max)`;
`remove_chars(autos['odometer'], ['km', ','])`; `rename(columns={'odometer':
'odometer_km'})`; `astype(float)`; `remove_registrations(autos, ...)`;
`compute_brands_avg_feature(autos, brands, 'price')`;
`compute_brands_avg_feature(autos, brands, 'odometer_km')`;
`autos[categorical_columns].replace(mapping_ge_to_en)`;
`autos['model'].replace({'andere': 'other'})`;
`pd.to_datetime(autos[column]).dt.strftime(date_format)` over the date
columns; `autos = autos[autos['price'].notnull()]`. -/
def notebookSteps : List Step :=
  [Step.loadAutos, Step.renameAllColumns, Step.dropConstantColumns,
   Step.stripPriceChars, Step.castPriceFloat, Step.boundPrices,
   Step.stripOdometerChars, Step.renameOdometerColumn, Step.castOdometerFloat,
   Step.removeRegistrationOutliers,
   Step.aggregateBrandPrices, Step.aggregateBrandMileages,
   Step.translateCategoricals, Step.translateModelAndere,
   Step.normalizeDates, Step.dropNullPriceRows]

/-- Position of a step in the notebook's execution order. -/
def stepIdx (s : Step) : Nat :=
  notebookSteps.findIdx fun t => t = s

/-- C2 counterexample: it is not true that every categorical translation and
date reformatting happens before the grouped brand means — the notebook
computes the brand mean prices strictly before it translates the categorical
columns (and before it reformats the dates). -/
theorem aggregation_precedes_translation :
    ¬ (∀ t ∈ [Step.translateCategoricals, Step.translateModelAndere,
          Step.normalizeDates],
        ∀ a ∈ [Step.aggregateBrandPrices, Step.aggregateBrandMileages],
        stepIdx t < stepIdx a)
    ∧ stepIdx Step.aggregateBrandPrices < stepIdx Step.translateCategoricals
    ∧ stepIdx Step.aggregateBrandMileages < stepIdx Step.normalizeDates := by
  refine ⟨fun hall => ?_, by decide, by decide⟩
  have h := hall Step.translateCategoricals (by decide)
    Step.aggregateBrandPrices (by decide)
  revert h
  decide

/-- C2 amended: the notebook's stages run in the fixed order Loader, column
rename and drop, price normalization, price bounding, odometer normalization,
registration-year filtering, then the Aggregator (brand mean prices, then
brand mean mileages), and only afterwards the Categorical Translator and the
Date Normalizer — the grouped means are computed before any categorical
translation or date reformatting of the table. -/
theorem notebook_stage_order :
    stepIdx Step.loadAutos < stepIdx Step.renameAllColumns
    ∧ stepIdx Step.renameAllColumns < stepIdx Step.dropConstantColumns
    ∧ stepIdx Step.dropConstantColumns < stepIdx Step.stripPriceChars
    ∧ stepIdx Step.stripPriceChars < stepIdx Step.castPriceFloat
    ∧ stepIdx Step.castPriceFloat < stepIdx Step.boundPrices
    ∧ stepIdx Step.boundPrices < stepIdx Step.stripOdometerChars
    ∧ stepIdx Step.stripOdometerChars < stepIdx Step.renameOdometerColumn
    ∧ stepIdx Step.renameOdometerColumn < stepIdx Step.castOdometerFloat
    ∧ stepIdx Step.castOdometerFloat < stepIdx Step.removeRegistrationOutliers
    ∧ stepIdx Step.removeRegistrationOutliers
        < stepIdx Step.aggregateBrandPrices
    ∧ stepIdx Step.aggregateBrandPrices < stepIdx Step.aggregateBrandMileages
    ∧ stepIdx Step.aggregateBrandMileages
        < stepIdx Step.translateCategoricals
    ∧ stepIdx Step.translateCategoricals < stepIdx Step.translateModelAndere
    ∧ stepIdx Step.translateModelAndere < stepIdx Step.normalizeDates
    ∧ stepIdx Step.normalizeDates < stepIdx Step.dropNullPriceRows := by
  decide

/-- The notebook's rename list for the twenty raw columns. -/
def renamedColumns : List String :=
  ["date_crawled", "name", "seller", "offer_type", "price", "ab_test",
   "vehicle_type", "registration_year", "gearbox", "power_ps", "model",
   "odometer", "registration_month", "fuel_type", "brand",
   "unrepaired_damage", "ad_created", "n_pictures", "postal_code",
   "last_seen"]

/-- The columns removed by
`autos.drop(columns=['seller', 'offer_type', 'n_pictures'], inplace=True)`. -/
def droppedColumns : List String := ["seller", "offer_type", "n_pictures"]

/-- Schema of the table right after the drop. -/
def columnsAfterDrop : List String :=
  renamedColumns.filter fun c => !(droppedColumns.contains c)

/-- Schema of the table from `rename(columns={'odometer': 'odometer_km'})`
on, unchanged until the Aggregator reads the table (the later steps replace
values or rows only). -/
def aggregatorInputColumns : List String :=
  columnsAfterDrop.map fun c => if c = "odometer" then "odometer_km" else c

/-- C9 counterexample: `odometer` is one of the seventeen columns kept by the
drop, yet it is not present in the Aggregator's input — the notebook later
renames it to `odometer_km` — so not all seventeen remaining renamed columns
stay present. -/
theorem odometer_renamed_after_drop :
    "odometer" ∈ columnsAfterDrop
    ∧ columnsAfterDrop.length = 17
    ∧ "odometer" ∉ aggregatorInputColumns := by
  decide

/-- C9 amended: the drop of `seller`, `offer_type` and `n_pictures` runs
before any field normalization; none of the three dropped columns occurs in
any later schema; and the Aggregator's input holds the other seventeen
columns, sixteen of them under their renamed names plus `odometer` under its
later name `odometer_km`. -/
theorem dropped_columns_spec :
    stepIdx Step.dropConstantColumns < stepIdx Step.stripPriceChars
    ∧ (∀ c ∈ droppedColumns,
        c ∉ columnsAfterDrop ∧ c ∉ aggregatorInputColumns)
    ∧ (∀ c ∈ columnsAfterDrop, c ≠ "odometer" → c ∈ aggregatorInputColumns)
    ∧ "odometer_km" ∈ aggregatorInputColumns
    ∧ aggregatorInputColumns.length = 17 := by
  decide

/-- Witness for C9 amended: `price` survives the drop into the Aggregator's
input. -/
theorem dropped_columns_spec_witness : "price" ∈ aggregatorInputColumns :=
  dropped_columns_spec.2.2.1 "price" (by decide) (by decide)

/-- Whether `pat` is an initial segment of `l`. -/
def leadsWith : List Char → List Char → Bool
  | [], _ => true
  | _ :: _, [] => false
  | p :: ps, c :: cs => p == c && leadsWith ps cs

/-- Remove the occurrences of `pat` from `l`, scanning left to right without
overlap (Python `str.replace(pat, '')`); `fuel` bounds the recursion and any
`fuel ≥ l.length` gives the same result. -/
def removeOccAux : Nat → List Char → List Char → List Char
  | 0, _, l => l
  | _ + 1, _, [] => []
  | fuel + 1, pat, c :: rest =>
    if pat ≠ [] ∧ leadsWith pat (c :: rest) then
      removeOccAux fuel pat ((c :: rest).drop pat.length)
    else
      c :: removeOccAux fuel pat rest

/-- Remove all occurrences of `pat` from `l`. -/
def removeOcc (pat l : List Char) : List Char :=
  removeOccAux l.length pat l

/-- Modelled from the spec: `remove_chars` is imported by the notebook from
`carsales.features`, which is not part of the repository sources; per the
spec (§4.2 `strip_and_cast`) it removes from each text value all occurrences
of every configured literal substring, one substring after the other. -/
def stripAll (subs : List String) (s : String) : String :=
  subs.foldl (fun acc p => String.mk (removeOcc p.data acc.data)) s

/-- Numeric value of a string of decimal digits. -/
def natOfDigits (l : List Char) : Nat :=
  l.foldl (fun n c => 10 * n + (c.toNat - 48)) 0

/-- Split a character list at a single decimal point: integer part and
fraction part; more than one decimal point is malformed. -/
def splitDot : List Char → Option (List Char × List Char)
  | [] => some ([], [])
  | c :: rest =>
    if c = '.' then
      if rest.contains '.' then none else some ([], rest)
    else
      (splitDot rest).map fun p => (c :: p.1, p.2)

/-- Whether and how a string converts under Python float conversion (the
decimal-literal fragment, which covers the pipeline's data): digits with at
most one decimal point; `none` marks a string — the empty string included —
for which the conversion fails, which `astypeFloat` turns into the raised
`ValueError`. -/
def floatOfString (s : String) : Option ℚ :=
  match splitDot s.data with
  | none => none
  | some (ip, fp) =>
    if (ip ≠ [] ∨ fp ≠ []) ∧ ip.all Char.isDigit ∧ fp.all Char.isDigit then
      some ((natOfDigits ip : ℚ)
        + (natOfDigits fp : ℚ) / (10 : ℚ) ^ fp.length)
    else none

/-- One cell of `Series.astype(float)` on an object column: a null (NaN) is
already a float and stays null, a convertible string becomes its value, and
an empty or otherwise unconvertible string raises `ValueError`. -/
def castFloatCell : Option String → Except String (Option ℚ)
  | none => Except.ok none
  | some s =>
    match floatOfString s with
    | some q => Except.ok (some q)
    | none => Except.error s

/-- `column.astype(float)` as the notebook calls it (cells on `price` and
`odometer`): the whole conversion fails on the first unconvertible value. -/
def astypeFloat : List (Option String) → Except String (List (Option ℚ))
  | [] => Except.ok []
  | c :: rest =>
    match castFloatCell c, astypeFloat rest with
    | Except.ok q, Except.ok qs => Except.ok (q :: qs)
    | Except.error e, _ => Except.error e
    | Except.ok _, Except.error e => Except.error e

/-- The spec's `strip_and_cast`, as the notebook realises it:
`remove_chars` (missing from src/, modelled as `stripAll`) followed by
`astype(float)`, which raises on a value that is empty or unconvertible
after stripping; the input column is an argument of a pure function, so it
is not mutated. -/
def strip_and_cast (col : List (Option String)) (subs : List String) :
    Except String (List (Option ℚ)) :=
  astypeFloat (col.map fun c => c.map (stripAll subs))

theorem splitDot_no_dot (l : List Char) (h : ∀ c ∈ l, c ≠ '.') :
    splitDot l = some (l, []) := by
  induction l with
  | nil => rfl
  | cons c rest ih =>
    have hc : ¬ c = '.' := h c (by simp)
    have hrest := ih fun x hx => h x (by simp [hx])
    simp [splitDot, hc, hrest]

/-- C7 counterexample: on a cell that is empty after stripping — `"$"` with
strip-set `{"$", ","}` — the strip-and-cast pipeline fails the whole cast
(`astype(float)` raises `ValueError`); the cell does not become null as the
claim states. -/
theorem strip_and_cast_unparsable_fatal :
    strip_and_cast [some "$"] ["$", ","] = Except.error ""
    ∧ strip_and_cast [some "$"] ["$", ","] ≠ Except.ok [none]
    ∧ strip_and_cast [some "N/A"] ["$", ","] = Except.error "N/A" := by
  refine ⟨rfl, ?_, rfl⟩
  intro hEq
  rw [show strip_and_cast [some "$"] ["$", ","] = Except.error ""
    from rfl] at hEq
  exact Except.noConfusion hEq

theorem astypeFloat_ok (l : List (Option String))
    (h : (l.all fun c =>
        match c with
        | none => true
        | some s => (floatOfString s).isSome) = true) :
    astypeFloat l
      = Except.ok (l.map fun c => c.bind fun s => floatOfString s) := by
  induction l with
  | nil => rfl
  | cons c rest ih =>
    simp only [List.all_cons, Bool.and_eq_true] at h
    have hrest := ih h.2
    cases c with
    | none => simp [astypeFloat, castFloatCell, hrest]
    | some s =>
      obtain ⟨q, hq⟩ := Option.isSome_iff_exists.mp h.1
      simp [astypeFloat, castFloatCell, hq, hrest]

/-- C7 amended: on a column all of whose non-null values convert after
stripping, `strip_and_cast` succeeds and each cell is the stripped and parsed
version of the input cell (nulls staying null, the input untouched); a value
that is all digits after stripping yields exactly its decimal numeric value;
and the documented example `"$3,500"` with strip-set `{"$", ","}` yields
`3500`.  A value empty or unconvertible after stripping instead makes the
whole cast raise, it does not become a per-cell null. -/
theorem strip_and_cast_parsable (col : List (Option String))
    (subs : List String)
    (h : (col.all fun c =>
        match c with
        | none => true
        | some s => (floatOfString (stripAll subs s)).isSome) = true) :
    strip_and_cast col subs
      = Except.ok (col.map fun c =>
          c.bind fun s => floatOfString (stripAll subs s))
    ∧ (∀ s : String, s.data ≠ [] → s.data.all Char.isDigit = true →
        floatOfString s = some ((natOfDigits s.data : ℚ)))
    ∧ strip_and_cast [some "$3,500"] ["$", ","] = Except.ok [some 3500] := by
  refine ⟨?_, ?_, ?_⟩
  · have hmap : ((col.map fun c => c.map (stripAll subs)).all fun c =>
        match c with
        | none => true
        | some s => (floatOfString s).isSome) = true := by
      rw [List.all_map]
      refine List.all_eq_true.mpr fun c hc => ?_
      have hcc := List.all_eq_true.mp h c hc
      cases c with
      | none => rfl
      | some s => simpa using hcc
    rw [strip_and_cast, astypeFloat_ok _ hmap, List.map_map]
    refine congrArg _ (List.map_congr_left fun c _ => ?_)
    cases c with
    | none => rfl
    | some s => rfl
  · intro s hne hdig
    have hnd : ∀ c ∈ s.data, c ≠ '.' := by
      intro c hc he
      have hdc := (List.all_eq_true.mp hdig) c hc
      rw [he] at hdc
      exact Bool.noConfusion hdc
    simp only [floatOfString, splitDot_no_dot s.data hnd]
    rw [if_pos (show (s.data ≠ [] ∨ ([] : List Char) ≠ [])
        ∧ s.data.all Char.isDigit = true
        ∧ ([] : List Char).all Char.isDigit = true
      from ⟨Or.inl hne, hdig, by simp⟩)]
    norm_num [show natOfDigits [] = 0 from rfl]
  · have hsplit : splitDot "3500".data = some ("3500".data, []) := by decide
    have hcast : floatOfString "3500" = some 3500 := by
      simp only [floatOfString, hsplit]
      rw [if_pos (show ("3500".data ≠ [] ∨ ([] : List Char) ≠ [])
          ∧ "3500".data.all Char.isDigit = true
          ∧ ([] : List Char).all Char.isDigit = true
        from ⟨Or.inl (by decide), by decide, by decide⟩)]
      norm_num [show natOfDigits "3500".data = 3500 from by decide,
        show natOfDigits [] = 0 from rfl]
    have hmap2 : ([some "$3,500"].map fun c => c.map (stripAll ["$", ","]))
        = [some "3500"] := by decide
    rw [strip_and_cast, hmap2]
    simp [astypeFloat, castFloatCell, hcast]

/-- Witness for C7 amended: the documented `"$3,500"` example through a
conversion whose hypothesis is discharged concretely. -/
theorem strip_and_cast_parsable_witness :
    strip_and_cast [some "$3,500"] ["$", ","] = Except.ok [some 3500] :=
  (strip_and_cast_parsable [some "$3,500"] ["$", ","] (by decide)).2.2

end Carsales
